import Mathlib

/-!
Verification development for the Deal-forensics analysis core.

Shallow embedding of the Python source:
  * `src/rag/data_processor.py`   — metrics extractor, similarity matcher
  * `src/agents/timeline_agent.py` — response parsing and rule-based fallback
  * `src/agents/playbook_agent.py` — rule-based playbook fallback
  * `src/rag/vector_store.py`      — index population
  * `src/utils/helpers.py`         — deal-data validation

Python strings are modelled as `List Char`; machine floats are modelled as
exact rationals (all arithmetic in the source is on small decimal literals
and integer day offsets); fallible operations return `Option`/`Except`.
-/

/-- Characters stripped by Python `str.strip()` (the ASCII whitespace set). -/
def isSpaceChar (c : Char) : Bool :=
  c = ' ' || c = '\t' || c = '\n' || c = '\r' || c = '\x0b' || c = '\x0c'

/-- Python `str.strip()`: drop whitespace from both ends. -/
def pyStrip (l : List Char) : List Char :=
  ((l.dropWhile isSpaceChar).reverse.dropWhile isSpaceChar).reverse

/-- Python `sub in s`: contiguous-substring containment test. -/
def hasSub (sep : List Char) : List Char → Bool
  | [] => sep.isEmpty
  | c :: rest => sep.isPrefixOf (c :: rest) || hasSub sep rest

/-- Python `kw in s` on `String` values. -/
def pyIn (kw s : String) : Bool := hasSub kw.toList s.toList

/-- Python `str.lower()` (ASCII case folding suffices for the source's keywords). -/
def lowerStr (s : String) : String := String.mk (s.toList.map Char.toLower)

/-- The backtick character (written via a string literal). -/
def btChar : Char := "`".toList.headD ' '

/-- Opening brace character. -/
def obrace : Char := '\x7b'

/-- Closing brace character. -/
def cbrace : Char := '\x7d'

/-- The fence marker for tagged json blocks. -/
def fenceJson : List Char := "```json".toList

/-- The plain fence marker. -/
def fence : List Char := "```".toList

/-- Fuel-indexed worker for Python `str.split(sep)`; fuel is at least the
length of the remaining input on every reachable call. -/
def splitOnFuel (sep : List Char) : Nat → List Char → List (List Char)
  | _, [] => [[]]
  | 0, l => [l]
  | f + 1, c :: rest =>
      if sep.isPrefixOf (c :: rest) ∧ sep ≠ [] then
        [] :: splitOnFuel sep f (List.drop (sep.length - 1) rest)
      else
        match splitOnFuel sep f rest with
        | [] => [[c]]
        | h :: t => (c :: h) :: t

/-- Python `str.split(sep)` for a non-empty separator. -/
def splitOnL (sep l : List Char) : List (List Char) := splitOnFuel sep l.length l

/-- Python `str.find(ch)`: index of first occurrence, `-1` if absent. -/
def pyFind (ch : Char) (l : List Char) : Int :=
  match l.findIdx? (fun x => decide (x = ch)) with
  | some i => (i : Int)
  | none => -1

/-- Python `str.rfind(ch)`: index of last occurrence, `-1` if absent. -/
def pyRfind (ch : Char) (l : List Char) : Int :=
  match l.reverse.findIdx? (fun x => decide (x = ch)) with
  | some i => ((l.length - 1 - i : Nat) : Int)
  | none => -1

/-- Python slice `s[a:b]` for non-negative bounds. -/
def pySlice (l : List Char) (a b : Int) : List Char :=
  (l.drop a.toNat).take (b.toNat - a.toNat)

/-- `timeline_agent.py:150`: `response_text[:500] + "..." if len > 500 else response_text`. -/
def pyTruncate (l : List Char) : List Char :=
  if 500 < l.length then l.take 500 ++ "...".toList else l

/-- One timeline event (`day`, `event`, `details`), `data/sample_deals.json` schema. -/
structure TEvent where
  day : Int
  event : String
  details : String
deriving Repr, DecidableEq

/-- A deal record.  Optional fields model Python `dict.get` lookups: the source
reads `industry`, `value`, `competitors` and `loss_reason` with `.get` and
fabricated defaults, so absence is representable. -/
structure Deal where
  deal_id : String
  company : String
  value : Option ℚ
  industry : Option String
  competitors : Option (List String)
  loss_reason : Option String
  timeline : List TEvent
deriving Repr, DecidableEq

/-- The two-corpus dataset shape of `sample_deals.json`. -/
structure Corpus where
  lost_deals : List Deal
  won_deals : List Deal
deriving Repr, DecidableEq

/-! ## Metrics extractor — `DataProcessor.extract_timeline_metrics` (data_processor.py:75-107) -/

/-- `data_processor.py:97` keyword set for critical-event detection. -/
def criticalKeywords : List String :=
  ["proposal", "demo", "pricing", "competitor", "budget"]

/-- `data_processor.py:96-97`: the extractor lowercases only the `event` label
and checks keyword substrings against it (the `details` text is not consulted). -/
def isCriticalEvent (e : TEvent) : Bool :=
  criticalKeywords.any (fun kw => pyIn kw (lowerStr e.event))

/-- The claim's reading of `critical_events_count` (spec wording: "`event` or
`details` text contains any keyword").  Stated only to compare against the
source's `isCriticalEvent`, which ignores `details`. -/
def claimedCriticalEventsCount (timeline : List TEvent) : Nat :=
  (timeline.filter (fun e =>
    criticalKeywords.any (fun kw =>
      pyIn kw (lowerStr e.event) || pyIn kw (lowerStr e.details)))).length

/-- `data_processor.py:85-88`: consecutive day differences `t[i].day - t[i-1].day`. -/
def consecGaps : List TEvent → List Int
  | a :: b :: rest => (b.day - a.day) :: consecGaps (b :: rest)
  | _ => []

/-- Python `max(list)` on a non-empty integer list (0 on `[]`, matching the
`if gaps else 0` guard at data_processor.py:91). -/
def listMaxD : List Int → Int
  | [] => 0
  | a :: r => r.foldl max a

/-- The metrics record returned by `extract_timeline_metrics` for a non-empty timeline. -/
structure Metrics where
  total_duration_days : Int
  number_of_events : Nat
  avg_response_gap_days : ℚ
  max_response_gap_days : Int
  timeline_density : ℚ
  critical_events_count : Nat
deriving Repr, DecidableEq

/-- `DataProcessor.extract_timeline_metrics` (data_processor.py:75-107).
`none` models the early `return {}` for an empty timeline (line 78-79): the
Python output is an empty dict carrying none of the metric fields. -/
def extract_timeline_metrics (timeline : List TEvent) : Option Metrics :=
  match timeline with
  | [] => none
  | e :: rest =>
      let dmax := (rest.map (fun x => x.day)).foldl max e.day
      let dmin := (rest.map (fun x => x.day)).foldl min e.day
      let total_duration := dmax - dmin
      let gaps := consecGaps (e :: rest)
      some
        { total_duration_days := total_duration
          number_of_events := (e :: rest).length
          avg_response_gap_days :=
            if gaps.isEmpty then 0 else (gaps.sum : ℚ) / (gaps.length : ℚ)
          max_response_gap_days := if gaps.isEmpty then 0 else listMaxD gaps
          timeline_density :=
            if 0 < total_duration
            then ((e :: rest).length : ℚ) / (total_duration : ℚ) else 0
          critical_events_count := ((e :: rest).filter isCriticalEvent).length }

/-! ## Similarity matcher — `DataProcessor._calculate_deal_similarity` and
`get_won_deals_for_comparison` (data_processor.py:36-73) -/

/-- data_processor.py:56: `deal1.get('industry') == deal2.get('industry')`
(absent fields compare as Python `None == None`, i.e. equal). -/
def industryMatch (d1 d2 : Deal) : Prop := d1.industry = d2.industry

instance (d1 d2 : Deal) : Decidable (industryMatch d1 d2) := by
  unfold industryMatch; infer_instance

/-- data_processor.py:60-64: both values positive and `min/max > 0.5`. -/
def valueMatch (d1 d2 : Deal) : Prop :=
  0 < d1.value.getD 0 ∧ 0 < d2.value.getD 0 ∧
    1 / 2 < min (d1.value.getD 0) (d2.value.getD 0) / max (d1.value.getD 0) (d2.value.getD 0)

instance (d1 d2 : Deal) : Decidable (valueMatch d1 d2) := by
  unfold valueMatch; infer_instance

/-- data_processor.py:68-70: non-empty intersection of the competitor sets. -/
def competitorOverlap (d1 d2 : Deal) : Prop :=
  ∃ c ∈ d1.competitors.getD [], c ∈ d2.competitors.getD []

instance (d1 d2 : Deal) : Decidable (competitorOverlap d1 d2) := by
  unfold competitorOverlap; infer_instance

/-- `DataProcessor._calculate_deal_similarity` (data_processor.py:51-73):
0.4 for industry equality, 0.3 for the value-ratio match, 0.3 for competitor
overlap, accumulated from 0. -/
def dealSimilarity (d1 d2 : Deal) : ℚ :=
  (if industryMatch d1 d2 then 2 / 5 else 0) +
  (if valueMatch d1 d2 then 3 / 10 else 0) +
  (if competitorOverlap d1 d2 then 3 / 10 else 0)

/-- data_processor.py:41-45: candidates scoring strictly above 0.3, paired with
their scores, in corpus order. -/
def scoredCandidates (lost : Deal) (won : List Deal) : List (Deal × ℚ) :=
  won.filterMap (fun d =>
    if 3 / 10 < dealSimilarity lost d then some (d, dealSimilarity lost d) else none)

/-- Stable descending insertion: `x` passes over strictly larger scores and
stops before the first score `≤` its own, so equal-score elements already in
place (which originate later in the corpus) stay after `x`. -/
def insertDesc (x : Deal × ℚ) : List (Deal × ℚ) → List (Deal × ℚ)
  | [] => [x]
  | y :: ys => if x.2 < y.2 then y :: insertDesc x ys else x :: y :: ys

/-- Stable sort by descending score: the model of Python's stable
`list.sort(key=score, reverse=True)` at data_processor.py:48. -/
def sortDesc : List (Deal × ℚ) → List (Deal × ℚ)
  | [] => []
  | x :: xs => insertDesc x (sortDesc xs)

/-- `DataProcessor.get_won_deals_for_comparison` (data_processor.py:36-49):
filter above the 0.3 threshold, stable-sort descending by score, return the
top `n` deals. -/
def get_won_deals_for_comparison (lost : Deal) (won : List Deal) (n : Nat) : List Deal :=
  ((sortDesc (scoredCandidates lost won)).take n).map Prod.fst

/-! ## Timeline stage rule-based fallback —
`TimelineAgent._get_fallback_analysis` (timeline_agent.py:178-243) -/

/-- A `critical_moments` entry (timeline_agent.py:193-198). -/
structure CriticalMoment where
  day : Int
  event : String
  impact : String
  description : String
deriving Repr, DecidableEq

/-- A `warning_signals` entry (timeline_agent.py:202-207). -/
structure WarningSignal where
  day : Int
  signal : String
  severity : String
  description : String
deriving Repr, DecidableEq

/-- The `failure_point` record (timeline_agent.py:229-234). -/
structure FailurePoint where
  day : Int
  event : String
  reason : String
  recoverable : String
deriving Repr, DecidableEq

/-- A `response_time_issues` entry (timeline_agent.py:213-217). -/
structure ResponseIssue where
  delay_days : Int
  event : String
  impact : String
deriving Repr, DecidableEq

/-- The record returned by `_get_fallback_analysis` (timeline_agent.py:226-243). -/
structure FallbackAnalysis where
  critical_moments : List CriticalMoment
  warning_signals : List WarningSignal
  failure_point : FailurePoint
  response_time_issues : List ResponseIssue
  timeline_score : Nat
  recommendations : List String
  fallback_analysis : Bool
deriving Repr, DecidableEq

/-- timeline_agent.py:192 keyword set for fallback critical moments. -/
def fallbackCriticalWords : List String := ["proposal", "demo", "meeting", "pricing"]

/-- timeline_agent.py:201 keyword set for fallback warning signals. -/
def fallbackWarningWords : List String := ["delay", "ghost", "concern", "competitor", "budget"]

/-- timeline_agent.py:222 keyword set for the fallback failure point. -/
def fallbackFailureWords : List String := ["ghost", "lost", "competitor", "no response"]

/-- timeline_agent.py:222: does an event's lowercased `details` contain a
failure keyword? -/
def failMatch (e : TEvent) : Bool :=
  fallbackFailureWords.any (fun w => pyIn w (lowerStr e.details))

/-- timeline_agent.py:219-224 and 229-234: the fallback `failure_point` — the
last event (iterating the timeline in reverse) whose details contain a failure
keyword, else the final event's day with event "Unknown"; `none` models the
`IndexError` raised by `timeline_events[-1]['day']` (line 230) on an empty
timeline. -/
def fallbackFailurePoint (timeline : List TEvent) : Option FailurePoint :=
  match timeline.reverse.find? failMatch with
  | some fe => some { day := fe.day, event := fe.event,
                      reason := "Identified through pattern matching", recoverable := "yes" }
  | none =>
      match timeline.getLast? with
      | some le => some { day := le.day, event := "Unknown",
                          reason := "Identified through pattern matching", recoverable := "yes" }
      | none => none

/-- timeline_agent.py:183-243: the rule-based fallback record around a given
failure point — critical moments and warning signals truncated to 3, all
gaps > 2 days flagged, fixed score 6 and fixed recommendations. -/
def fallbackRecord (timeline : List TEvent) (p : FailurePoint) : FallbackAnalysis :=
  { critical_moments := (timeline.filterMap (fun e =>
      if fallbackCriticalWords.any (fun w => pyIn w (lowerStr e.event)) then
        some { day := e.day, event := e.event,
               impact := if pyIn "positive" (lowerStr e.details) then "positive" else "negative",
               description := e.details : CriticalMoment }
      else none)).take 3
    warning_signals := (timeline.filterMap (fun e =>
      if fallbackWarningWords.any (fun w => pyIn w (lowerStr e.details)) then
        some { day := e.day, signal := "Potential Issue", severity := "medium",
               description := e.details : WarningSignal }
      else none)).take 3
    failure_point := p
    response_time_issues := (timeline.zip timeline.tail).filterMap (fun pq =>
      if 2 < pq.2.day - pq.1.day then
        some { delay_days := pq.2.day - pq.1.day, event := pq.2.event,
               impact := "Potential loss of momentum" : ResponseIssue }
      else none)
    timeline_score := 6
    recommendations :=
      ["Reduce response times between key events",
       "Monitor for warning signals more proactively",
       "Implement automated follow-up system"]
    fallback_analysis := true }

/-- `TimelineAgent._get_fallback_analysis` (timeline_agent.py:178-243):
`none` models the `IndexError` on an empty timeline, otherwise the rule-based
record. -/
def get_fallback_analysis (timeline : List TEvent) : Option FallbackAnalysis :=
  (fallbackFailurePoint timeline).map (fallbackRecord timeline)

/-! ## Response parsing — `TimelineAgent._parse_analysis_response` and
`_create_structured_fallback` (timeline_agent.py:89-151) -/

/-- The parse-fallback record of `_create_structured_fallback`
(timeline_agent.py:119-151): fixed placeholder fields plus the truncated raw
text. -/
structure ParseFallback where
  critical_moments : List CriticalMoment
  warning_signals : List WarningSignal
  failure_point : FailurePoint
  response_time_issues : List ResponseIssue
  timeline_score : Nat
  recommendations : List String
  raw_response : List Char
deriving Repr, DecidableEq

/-- Outcome of `_parse_analysis_response`: a successfully decoded structure or
the parse-fallback record. -/
inductive ParseResult (α : Type) where
  | parsed (a : α)
  | fallback (f : ParseFallback)
deriving Repr, DecidableEq

/-- `TimelineAgent._create_structured_fallback` (timeline_agent.py:119-151). -/
def structuredFallback (text : List Char) : ParseFallback :=
  { critical_moments :=
      [{ day := 0, event := "Analysis Error", impact := "negative",
         description := "Failed to parse AI response" }]
    warning_signals :=
      [{ day := 0, signal := "Parsing Error", severity := "medium",
         description := "Could not parse the analysis response" }]
    failure_point :=
      { day := 0, event := "Analysis Failure",
        reason := "Technical error in parsing response", recoverable := "yes" }
    response_time_issues := []
    timeline_score := 5
    recommendations := ["Check the AI response format", "Verify the input data quality"]
    raw_response := pyTruncate text }

/-- timeline_agent.py:92-101: candidate-JSON extraction — take the contents
of a ```json fence, else of a plain ``` fence, else the whole text, stripping
whitespace (the source strips the fenced branches once at extraction and the
result once more at line 101). -/
def extractJsonStr (text : List Char) : List Char :=
  pyStrip
    (if hasSub fenceJson text then
      pyStrip ((splitOnL fence ((splitOnL fenceJson text).getD 1 [])).getD 0 [])
    else if hasSub fence text then
      pyStrip ((splitOnL fence text).getD 1 [])
    else text)

/-- `TimelineAgent._parse_analysis_response` (timeline_agent.py:89-117).
`loads` abstracts `json.loads`: `some` on a string it decodes, `none` on the
strings it raises for; any exception in the body routes to
`_create_structured_fallback`. -/
def parse_analysis_response {α : Type} (loads : List Char → Option α)
    (text : List Char) : ParseResult α :=
  let json_str := extractJsonStr text
  if json_str.head? = some obrace ∧ json_str.getLast? = some cbrace then
    match loads json_str with
    | some a => .parsed a
    | none => .fallback (structuredFallback text)
  else
    let start_idx := pyFind obrace json_str
    let end_idx := pyRfind cbrace json_str + 1
    if start_idx ≠ -1 ∧ end_idx ≠ -1 then
      match loads (pySlice json_str start_idx end_idx) with
      | some a => .parsed a
      | none => .fallback (structuredFallback text)
    else .fallback (structuredFallback text)

/-! ## Playbook stage rule-based fallback —
`PlaybookAgent._get_fallback_playbook` (playbook_agent.py:174-252) -/

/-- An `immediate_actions` entry (playbook_agent.py:177-189). -/
structure ImmediateAction where
  action : String
  owner : String
  timeline : String
  priority : String
deriving Repr, DecidableEq

/-- A `trigger_responses` entry (playbook_agent.py:191-204). -/
structure TriggerResponse where
  trigger : String
  immediate_action : String
  follow_up : String
  timeframe : String
deriving Repr, DecidableEq

/-- A `competitor_strategies` entry (playbook_agent.py:205-214). -/
structure CompetitorStrategy where
  competitor : String
  counter_strategy : String
  key_messages : List String
deriving Repr, DecidableEq

/-- A `timing_guidelines` entry (playbook_agent.py:215-226). -/
structure TimingGuideline where
  scenario : String
  max_response_time : String
  best_practice : String
deriving Repr, DecidableEq

/-- An `escalation_protocols` entry (playbook_agent.py:227-238). -/
structure EscalationProtocol where
  condition : String
  action : String
  escalate_to : String
deriving Repr, DecidableEq

/-- A `success_metrics` entry (playbook_agent.py:239-250). -/
structure SuccessMetric where
  metric : String
  target : String
  measurement_frequency : String
deriving Repr, DecidableEq

/-- The record returned by `_get_fallback_playbook` (playbook_agent.py:176-252). -/
structure PlaybookFallback where
  immediate_actions : List ImmediateAction
  trigger_responses : List TriggerResponse
  competitor_strategies : List CompetitorStrategy
  timing_guidelines : List TimingGuideline
  escalation_protocols : List EscalationProtocol
  success_metrics : List SuccessMetric
  fallback_playbook : Bool
deriving Repr, DecidableEq

/-- `PlaybookAgent._get_fallback_playbook` (playbook_agent.py:174-252).  The
`timeline_analysis` and `comparative_analysis` parameters of the source are
never read; only `lost_deal_data` is.  `none` models the `IndexError` raised
by `lost_deal_data.get('competitors', ['Unknown'])[0]` (line 207) when the
`competitors` field is present but an empty list. -/
def get_fallback_playbook (lost_deal : Deal) : Option PlaybookFallback :=
  ((lost_deal.competitors.getD ["Unknown"]).head?).map (fun c0 =>
    { immediate_actions :=
        [{ action := "Implement 24-hour maximum response time policy",
           owner := "Sales Team", timeline := "Immediately", priority := "high" },
         { action := "Create competitor response toolkit",
           owner := "Sales Enablement", timeline := "2 weeks", priority := "medium" }]
      trigger_responses :=
        [{ trigger := "Competitor mentioned",
           immediate_action := "Send relevant case study and differentiation guide",
           follow_up := "Schedule competitive positioning discussion", timeframe := "4 hours" },
         { trigger := "Budget concerns",
           immediate_action := "Send ROI calculator and payment flexibility options",
           follow_up := "Schedule financial justification session", timeframe := "4 hours" }]
      competitor_strategies :=
        [{ competitor := c0, counter_strategy := "Focus on long-term value and ROI",
           key_messages :=
             ["Our solution provides 3x ROI within 12 months",
              "Unlike competitors, we offer dedicated support"] }]
      timing_guidelines :=
        [{ scenario := "Initial contact", max_response_time := "2 hours",
           best_practice := "Personalized response within 1 hour" },
         { scenario := "After demo", max_response_time := "4 hours",
           best_practice := "Follow-up with specific next steps" }]
      escalation_protocols :=
        [{ condition := "Deal stalled for 7+ days",
           action := "Sales manager personal outreach", escalate_to := "Sales Manager" },
         { condition := "Competitor win likely",
           action := "Executive engagement and special terms", escalate_to := "VP Sales" }]
      success_metrics :=
        [{ metric := "Deal win rate", target := "Increase by 15%",
           measurement_frequency := "Monthly" },
         { metric := "Average response time", target := "< 4 hours",
           measurement_frequency := "Weekly" }]
      fallback_playbook := true })

/-! ## Index population — `DealVectorStore.store_deals` (vector_store.py:10-53) -/

/-- The external collection, modelled as the list of (id, document) pairs it
holds; `get` returns all ids, `delete` removes the named ids, `add` appends. -/
abbrev Collection := List (String × String)

/-- vector_store.py:18-20: textual rendering of a lost deal. -/
def dealDocLost (d : Deal) : String :=
  "Lost Deal: " ++ d.company ++ ". Reason: " ++ d.loss_reason.getD "unknown" ++ ". " ++
    String.join (d.timeline.map (fun e =>
      "Day " ++ toString e.day ++ ": " ++ e.event ++ " - " ++ e.details ++ ". "))

/-- vector_store.py:28-30: textual rendering of a won deal. -/
def dealDocWon (d : Deal) : String :=
  "Won Deal: " ++ d.company ++ ". " ++
    String.join (d.timeline.map (fun e =>
      "Day " ++ toString e.day ++ ": " ++ e.event ++ " - " ++ e.details ++ ". "))

/-- vector_store.py:12-34: the (id, document) pairs assembled for one corpus,
lost deals first, ids prefixed with the deal type. -/
def storeEntries (c : Corpus) : List (String × String) :=
  c.lost_deals.map (fun d => ("lost_" ++ d.deal_id, dealDocLost d)) ++
  c.won_deals.map (fun d => ("won_" ++ d.deal_id, dealDocWon d))

/-- `DealVectorStore.store_deals` (vector_store.py:10-53): fetch every existing
id and delete it (lines 36-42, leaving the collection empty), then add the new
documents if there are any (lines 44-53). -/
def store_deals (st : Collection) (c : Corpus) : Collection :=
  let entries := storeEntries c
  let cleared : Collection := st.filter (fun e => !(st.map Prod.fst).contains e.1)
  if entries.isEmpty then cleared else cleared ++ entries

/-! ## Corpus loading and validation — `DataProcessor._load_sample_data`
(data_processor.py:10-23) and `Helpers.validate_deal_data` (helpers.py:44-64) -/

/-- A raw timeline event as parsed from JSON: every key may be absent. -/
structure RawEvent where
  day : Option Int
  event : Option String
  details : Option String
deriving Repr, DecidableEq

/-- A raw deal record as parsed from JSON: every key may be absent. -/
structure RawDeal where
  deal_id : Option String
  company : Option String
  timeline : Option (List RawEvent)
deriving Repr, DecidableEq

/-- A raw two-corpus dataset as parsed from JSON. -/
structure RawCorpus where
  lost_deals : List RawDeal
  won_deals : List RawDeal
deriving Repr, DecidableEq

/-- The outcome of opening and JSON-decoding `data/sample_deals.json`. -/
inductive LoadInput where
  | missingFile
  | invalidJson
  | decoded (c : RawCorpus)
deriving Repr, DecidableEq

/-- The error taxonomy of `_load_sample_data`'s `except` clauses. -/
inductive LoadError where
  | fileNotFound
  | invalidFormat
deriving Repr, DecidableEq

/-- `DataProcessor._load_sample_data` (data_processor.py:10-23): re-raise file
and JSON-syntax errors with messages; any successfully decoded document is
returned as-is — no schema validation of any kind is performed. -/
def load_sample_data : LoadInput → Except LoadError RawCorpus
  | .missingFile => .error .fileNotFound
  | .invalidJson => .error .invalidFormat
  | .decoded c => .ok c

/-- `Helpers.validate_deal_data` (helpers.py:44-64): `(ok, message)`.  Defined
in the repository but never invoked by any loader or caller. -/
def validate_deal_data (d : RawDeal) : Bool × String :=
  let missing :=
    (if d.deal_id.isNone then ["deal_id"] else []) ++
    (if d.company.isNone then ["company"] else []) ++
    (if d.timeline.isNone then ["timeline"] else [])
  if !missing.isEmpty then
    (false, "Missing required fields: " ++ String.intercalate ", " missing)
  else if (d.timeline.getD []).any (fun e =>
      e.day.isNone || e.event.isNone || e.details.isNone) then
    (false, "Each timeline event must have 'day', 'event', and 'details'")
  else
    (true, "Deal data is valid")

/-! ## Concrete inputs used by witnesses and counterexamples -/

/-- The spec §8 end-to-end example timeline. -/
def tlW : List TEvent :=
  [{ day := 0, event := "Initial Contact", details := "positive interest" },
   { day := 5, event := "Demo", details := "competitor ABC mentioned, budget concern" },
   { day := 12, event := "Follow-up", details := "no response, ghosted" }]

/-- An event whose `details` (but not its `event` label) contain a critical keyword. -/
def evDetailsOnly : TEvent := { day := 0, event := "call", details := "budget concerns" }

/-- A concrete lost deal. -/
def dealL : Deal :=
  { deal_id := "LOST-001", company := "Acme", value := some 50000,
    industry := some "tech", competitors := some ["ABC"],
    loss_reason := some "ghosted", timeline := tlW }

/-- A won deal similar to `dealL` on all three similarity terms. -/
def dealW1 : Deal :=
  { deal_id := "WON-001", company := "Beta", value := some 48000,
    industry := some "tech", competitors := some ["ABC"], loss_reason := none,
    timeline := [{ day := 0, event := "Kickoff", details := "fast start" }] }

/-- A won deal dissimilar to `dealL` on all three similarity terms. -/
def dealW2 : Deal :=
  { deal_id := "WON-002", company := "Gamma", value := some 10000,
    industry := some "retail", competitors := some ["XYZ"], loss_reason := none,
    timeline := [{ day := 0, event := "Kickoff", details := "fast start" }] }

/-- A deal with no `industry`, no `value`, no `competitors` field. -/
def dealN1 : Deal :=
  { deal_id := "LOST-009", company := "NoInd", value := none,
    industry := none, competitors := none, loss_reason := none, timeline := [] }

/-- A second deal with no `industry`, no `value`, no `competitors` field. -/
def dealN2 : Deal :=
  { deal_id := "WON-009", company := "NoInd2", value := none,
    industry := none, competitors := none, loss_reason := none, timeline := [] }

/-- A deal whose `competitors` field is present but empty. -/
def dealEmptyComp : Deal :=
  { deal_id := "LOST-005", company := "Delta", value := some 1000,
    industry := some "tech", competitors := some [], loss_reason := some "price",
    timeline := tlW }

/-- A concrete two-corpus dataset with distinct deal ids. -/
def corpusW : Corpus := { lost_deals := [dealL], won_deals := [dealW1, dealW2] }

/-- A raw deal record missing its `timeline` field. -/
def badRawDeal : RawDeal :=
  { deal_id := some "LOST-001", company := some "Acme", timeline := none }

/-- A decoded corpus document containing `badRawDeal`. -/
def badRawCorpus : RawCorpus := { lost_deals := [badRawDeal], won_deals := [] }

/-- 501 copies of `a`: brace-free raw text longer than the 500-char cutoff. -/
def longNoBrace : List Char := List.replicate 501 'a'

/-- A valid JSON object text whose string value contains a triple backtick. -/
def objBad : String := "\x7b\"a\": \"x``` \"\x7d"

/-- `objBad` wrapped in a fenced json block. -/
def text4Bad : List Char := fenceJson ++ ("\n" ++ objBad ++ "\n").toList ++ fence

/-- A model of `json.loads` for the `text4Bad` scenario: decodes exactly the
embedded object text `objBad` (and, like `json.loads`, fails on the empty
string and on truncated fragments). -/
def loads4Bad : List Char → Option Nat :=
  fun l => if l = objBad.toList then some 1 else none

/-- A simple JSON object text for the parse witness. -/
def objW : String := "\x7b\"score\": 6\x7d"

/-- A model of `json.loads` for the witness: decodes exactly `objW`. -/
def loads4W : List Char → Option Nat :=
  fun l => if l = objW.toList then some 6 else none

/-! # Theorems -/

/-! ## Helper lemmas on folds, gaps and sorting -/

theorem foldl_max_init_le : ∀ (l : List Int) (a : Int), a ≤ l.foldl max a := by
  intro l
  induction l with
  | nil => intro a; exact le_refl a
  | cons b r ih =>
      intro a
      calc a ≤ max a b := le_max_left a b
        _ ≤ (b :: r).foldl max a := ih (max a b)

theorem foldl_max_mem : ∀ (l : List Int) (a : Int),
    l.foldl max a = a ∨ l.foldl max a ∈ l := by
  intro l
  induction l with
  | nil => intro a; exact Or.inl rfl
  | cons b r ih =>
      intro a
      rcases ih (max a b) with h | h
      · rcases max_choice a b with hm | hm
        · exact Or.inl (by rw [List.foldl_cons, h, hm])
        · exact Or.inr (by rw [List.foldl_cons, h, hm]; exact List.mem_cons_self b r)
      · exact Or.inr (List.mem_cons_of_mem b h)

theorem foldl_max_of_mem : ∀ (l : List Int) (a x : Int), x ∈ l → x ≤ l.foldl max a := by
  intro l
  induction l with
  | nil => intro a x hx; exact absurd hx (List.not_mem_nil x)
  | cons b r ih =>
      intro a x hx
      rcases List.mem_cons.mp hx with h | h
      · subst h
        calc x ≤ max a x := le_max_right a x
          _ ≤ r.foldl max (max a x) := foldl_max_init_le r (max a x)
      · exact ih (max a b) x h

theorem foldl_min_le_init : ∀ (l : List Int) (a : Int), l.foldl min a ≤ a := by
  intro l
  induction l with
  | nil => intro a; exact le_refl a
  | cons b r ih =>
      intro a
      calc (b :: r).foldl min a ≤ min a b := ih (min a b)
        _ ≤ a := min_le_left a b

theorem listMaxD_mem : ∀ l : List Int, l ≠ [] → listMaxD l ∈ l := by
  intro l hl
  match l with
  | [] => exact absurd rfl hl
  | a :: r =>
      have hdef : listMaxD (a :: r) = r.foldl max a := rfl
      rcases foldl_max_mem r a with h | h
      · rw [hdef, h]; exact List.mem_cons_self a r
      · rw [hdef]; exact List.mem_cons_of_mem a h

theorem le_listMaxD : ∀ (l : List Int) (x : Int), x ∈ l → x ≤ listMaxD l := by
  intro l x hx
  match l with
  | [] => exact absurd hx (List.not_mem_nil x)
  | a :: r =>
      rcases List.mem_cons.mp hx with h | h
      · exact h ▸ foldl_max_init_le r a
      · exact foldl_max_of_mem r a x h

theorem consecGaps_length : ∀ l : List TEvent, (consecGaps l).length = l.length - 1 := by
  intro l
  match l with
  | [] => rfl
  | [a] => rfl
  | a :: b :: rest =>
      have ih := consecGaps_length (b :: rest)
      simp only [consecGaps, List.length_cons] at ih ⊢
      omega

theorem consecGaps_ne_nil (a b : TEvent) (rest : List TEvent) :
    consecGaps (a :: b :: rest) ≠ [] := by
  simp [consecGaps]

/-! ## C1 — metrics extractor: response gaps and density -/

/-- C1 counterexample: the claim asserts that for timelines of length ≤ 1 the
extractor's output has `avg_response_gap_days = 0` and
`max_response_gap_days = 0`; but for the length-0 timeline the source returns
the empty dict `{}` (data_processor.py:78-79), which carries no metric fields
at all — modelled as `none`, so there is no metrics record whose fields could
equal 0. -/
theorem c1_empty_counterexample : extract_timeline_metrics [] = none := rfl

/-- C1 (amended): for every non-empty timeline the extractor returns a metrics
record; for length ≥ 2, `avg_response_gap_days` is the arithmetic mean of the
consecutive day differences and `max_response_gap_days` is their maximum; for
length exactly 1 both are 0; `total_duration_days` is never negative,
`timeline_density` equals `number_of_events / total_duration_days` whenever
the duration is positive and equals 0 (an exact rational, never NaN/∞)
whenever the duration is 0 — no division by zero occurs. -/
theorem c1_metrics_extractor (timeline : List TEvent) (h : timeline ≠ []) :
    ∃ m, extract_timeline_metrics timeline = some m ∧
      (2 ≤ timeline.length →
        m.avg_response_gap_days
            = ((consecGaps timeline).sum : ℚ) / ((consecGaps timeline).length : ℚ) ∧
        m.max_response_gap_days ∈ consecGaps timeline ∧
        ∀ g ∈ consecGaps timeline, g ≤ m.max_response_gap_days) ∧
      (timeline.length = 1 →
        m.avg_response_gap_days = 0 ∧ m.max_response_gap_days = 0) ∧
      0 ≤ m.total_duration_days ∧
      (0 < m.total_duration_days →
        m.timeline_density = (m.number_of_events : ℚ) / (m.total_duration_days : ℚ)) ∧
      (m.total_duration_days = 0 → m.timeline_density = 0) := by
  match timeline with
  | [] => exact absurd rfl h
  | e :: rest =>
      refine ⟨_, rfl, ?_, ?_, ?_, ?_, ?_⟩
      · intro hlen
        match rest with
        | [] => simp at hlen
        | b :: rest2 =>
            have hne : ¬ (consecGaps (e :: b :: rest2)).isEmpty := by
              simp [List.isEmpty_iff, consecGaps_ne_nil]
            refine ⟨?_, ?_, ?_⟩
            · simp only [extract_timeline_metrics]
              rw [if_neg hne]
            · simp only [extract_timeline_metrics]
              rw [if_neg hne]
              exact listMaxD_mem _ (consecGaps_ne_nil e b rest2)
            · intro g hg
              simp only [extract_timeline_metrics]
              rw [if_neg hne]
              exact le_listMaxD _ g hg
      · intro hlen
        match rest with
        | [] => exact ⟨rfl, rfl⟩
        | b :: rest2 => simp at hlen
      · show (0 : Int) ≤ (rest.map (fun x => x.day)).foldl max e.day
            - (rest.map (fun x => x.day)).foldl min e.day
        have h1 := foldl_min_le_init (rest.map (fun x => x.day)) e.day
        have h2 := foldl_max_init_le (rest.map (fun x => x.day)) e.day
        omega
      · intro hpos
        simp only [extract_timeline_metrics] at hpos ⊢
        rw [if_pos hpos]
      · intro hzero
        simp only [extract_timeline_metrics] at hzero ⊢
        rw [if_neg (by omega)]

/-- C1 witness: the amended theorem applied to the spec §8 example timeline. -/
theorem c1_metrics_extractor_witness :
    tlW ≠ [] ∧ ∃ m, extract_timeline_metrics tlW = some m ∧
      0 ≤ m.total_duration_days ∧ m.avg_response_gap_days = 6 := by
  refine ⟨by decide, ?_⟩
  obtain ⟨m, hm, hgap, _, hpos, _⟩ := c1_metrics_extractor tlW (by decide)
  refine ⟨m, hm, hpos, ?_⟩
  have havg := (hgap (by decide)).1
  have hg2 : consecGaps tlW = [5, 7] := rfl
  rw [havg, hg2]
  norm_num

/-! ## C7 — critical event count -/

/-- C7 counterexample: an event whose `details` contain the keyword `budget`
but whose `event` label contains no keyword.  The claim says it must be
counted (`event` **or** `details`), yet the source counts 0, because
data_processor.py:96-97 inspects only `event['event']`. -/
theorem c7_details_counterexample :
    (extract_timeline_metrics [evDetailsOnly]).map (fun m => m.critical_events_count)
        = some 0 ∧
      claimedCriticalEventsCount [evDetailsOnly] = 1 := by
  constructor
  · rfl
  · decide

/-- C7 (amended): for every non-empty timeline, `critical_events_count` equals
the number of events whose **event label** (the `details` text is not
consulted) contains one of {proposal, demo, pricing, competitor, budget} as a
case-insensitive substring. -/
theorem c7_critical_events_count (timeline : List TEvent) (h : timeline ≠ []) :
    ∃ m, extract_timeline_metrics timeline = some m ∧
      m.critical_events_count
        = (timeline.filter (fun e =>
            criticalKeywords.any (fun kw => pyIn kw (lowerStr e.event)))).length := by
  match timeline with
  | [] => exact absurd rfl h
  | e :: rest => exact ⟨_, rfl, rfl⟩

/-- C7 witness: the amended theorem applied to the spec §8 example timeline
(`Demo` and the `competitor`-mentioning label both count? — evaluated). -/
theorem c7_critical_events_count_witness :
    tlW ≠ [] ∧ ∃ m, extract_timeline_metrics tlW = some m ∧
      m.critical_events_count = 1 := by
  refine ⟨by decide, ?_⟩
  obtain ⟨m, hm, hc⟩ := c7_critical_events_count tlW (by decide)
  exact ⟨m, hm, by rw [hc]; decide⟩

/-! ## C3 — pairwise similarity: symmetry, bounds, decomposition -/

/-- C3 (confirmed): the pairwise similarity score is symmetric, lies in
`[0, 1]`, and is the sum of the three all-or-nothing weighted contributions
(+0.4 industry equality, +0.3 value-ratio match, +0.3 competitor overlap). -/
theorem c3_similarity_symmetric_bounded (d1 d2 : Deal) :
    dealSimilarity d1 d2 = dealSimilarity d2 d1 ∧
    0 ≤ dealSimilarity d1 d2 ∧ dealSimilarity d1 d2 ≤ 1 ∧
    dealSimilarity d1 d2 =
      (if industryMatch d1 d2 then 2 / 5 else 0) +
      (if valueMatch d1 d2 then 3 / 10 else 0) +
      (if competitorOverlap d1 d2 then 3 / 10 else 0) := by
  have hi : industryMatch d1 d2 ↔ industryMatch d2 d1 := eq_comm
  have hv : valueMatch d1 d2 ↔ valueMatch d2 d1 := by
    unfold valueMatch
    constructor
    · rintro ⟨a, b, c⟩; exact ⟨b, a, by rwa [min_comm, max_comm]⟩
    · rintro ⟨a, b, c⟩; exact ⟨b, a, by rwa [min_comm, max_comm]⟩
  have hc : competitorOverlap d1 d2 ↔ competitorOverlap d2 d1 := by
    unfold competitorOverlap
    constructor
    · rintro ⟨c, h1, h2⟩; exact ⟨c, h2, h1⟩
    · rintro ⟨c, h1, h2⟩; exact ⟨c, h2, h1⟩
  refine ⟨?_, ?_, ?_, rfl⟩
  · unfold dealSimilarity
    rw [if_congr hi rfl rfl, if_congr hv rfl rfl, if_congr hc rfl rfl]
  · unfold dealSimilarity
    split_ifs <;> norm_num
  · unfold dealSimilarity
    split_ifs <;> norm_num

/-! ## C10 — absent industry fields compare equal -/

/-- C10 (confirmed): two deals both lacking the `industry` field receive the
+0.4 industry contribution (Python `None == None`); with no value match and no
competitor overlap the score is exactly 0.4, which passes the
strictly-greater-than-0.3 filter, so the candidate is returned from a
singleton corpus. -/
theorem c10_absent_industry_matches (d1 d2 : Deal)
    (h1 : d1.industry = none) (h2 : d2.industry = none)
    (hv : ¬ valueMatch d1 d2) (hc : ¬ competitorOverlap d1 d2) :
    dealSimilarity d1 d2 = 2 / 5 ∧ 3 / 10 < dealSimilarity d1 d2 ∧
    d2 ∈ get_won_deals_for_comparison d1 [d2] 2 := by
  have hi : industryMatch d1 d2 := by unfold industryMatch; rw [h1, h2]
  have hs : dealSimilarity d1 d2 = 2 / 5 := by
    unfold dealSimilarity
    rw [if_pos hi, if_neg hv, if_neg hc]
    norm_num
  have hlt : (3 / 10 : ℚ) < dealSimilarity d1 d2 := by rw [hs]; norm_num
  have hcand : scoredCandidates d1 [d2] = [(d2, dealSimilarity d1 d2)] := by
    unfold scoredCandidates
    simp [hlt]
  refine ⟨hs, hlt, ?_⟩
  unfold get_won_deals_for_comparison
  rw [hcand]
  simp [sortDesc, insertDesc]

/-- C10 witness: two concrete industry-less deals with no value and no
competitors. -/
theorem c10_absent_industry_matches_witness :
    dealN1.industry = none ∧ dealN2.industry = none ∧
    ¬ valueMatch dealN1 dealN2 ∧ ¬ competitorOverlap dealN1 dealN2 ∧
    (dealSimilarity dealN1 dealN2 = 2 / 5 ∧ 3 / 10 < dealSimilarity dealN1 dealN2 ∧
      dealN2 ∈ get_won_deals_for_comparison dealN1 [dealN2] 2) := by
  have hv : ¬ valueMatch dealN1 dealN2 := by
    unfold valueMatch dealN1
    simp
  have hc : ¬ competitorOverlap dealN1 dealN2 := by
    unfold competitorOverlap dealN1
    simp
  exact ⟨rfl, rfl, hv, hc, c10_absent_industry_matches dealN1 dealN2 rfl rfl hv hc⟩

/-! ## C2 — similarity matcher: threshold, ordering, stability, truncation -/

theorem mem_scoredCandidates (lost : Deal) (won : List Deal) (x : Deal × ℚ)
    (hx : x ∈ scoredCandidates lost won) :
    x.2 = dealSimilarity lost x.1 ∧ 3 / 10 < x.2 := by
  unfold scoredCandidates at hx
  obtain ⟨d, _, hfd⟩ := List.mem_filterMap.mp hx
  by_cases hlt : 3 / 10 < dealSimilarity lost d
  · rw [if_pos hlt] at hfd
    cases hfd
    exact ⟨rfl, hlt⟩
  · rw [if_neg hlt] at hfd
    cases hfd

theorem insertDesc_cons (x y : Deal × ℚ) (ys : List (Deal × ℚ)) :
    insertDesc x (y :: ys)
      = if x.2 < y.2 then y :: insertDesc x ys else x :: y :: ys := rfl

theorem insertDesc_perm (x : Deal × ℚ) (l : List (Deal × ℚ)) :
    List.Perm (insertDesc x l) (x :: l) := by
  induction l with
  | nil => exact List.Perm.refl _
  | cons y ys ih =>
      rw [insertDesc_cons]
      by_cases hxy : x.2 < y.2
      · rw [if_pos hxy]
        exact List.Perm.trans (List.Perm.cons y ih) (List.Perm.swap x y ys)
      · rw [if_neg hxy]

theorem sortDesc_perm (l : List (Deal × ℚ)) : List.Perm (sortDesc l) l := by
  induction l with
  | nil => exact List.Perm.refl _
  | cons x xs ih =>
      exact List.Perm.trans (insertDesc_perm x (sortDesc xs)) (List.Perm.cons x ih)

theorem insertDesc_pairwise (x : Deal × ℚ) (l : List (Deal × ℚ))
    (h : l.Pairwise (fun a b => b.2 ≤ a.2)) :
    (insertDesc x l).Pairwise (fun a b => b.2 ≤ a.2) := by
  induction l with
  | nil => exact List.pairwise_singleton _ x
  | cons y ys ih =>
      rw [List.pairwise_cons] at h
      obtain ⟨hy, hys⟩ := h
      rw [insertDesc_cons]
      by_cases hxy : x.2 < y.2
      · rw [if_pos hxy, List.pairwise_cons]
        refine ⟨?_, ih hys⟩
        intro z hz
        rcases List.mem_cons.mp ((insertDesc_perm x ys).mem_iff.mp hz) with hzx | hzys
        · rw [hzx]
          exact le_of_lt hxy
        · exact hy z hzys
      · rw [if_neg hxy, List.pairwise_cons]
        refine ⟨?_, List.pairwise_cons.mpr ⟨hy, hys⟩⟩
        intro z hz
        rcases List.mem_cons.mp hz with hzy | hzys
        · rw [hzy]
          exact le_of_not_lt hxy
        · exact le_trans (hy z hzys) (le_of_not_lt hxy)

theorem sortDesc_pairwise (l : List (Deal × ℚ)) :
    (sortDesc l).Pairwise (fun a b => b.2 ≤ a.2) := by
  induction l with
  | nil => exact List.Pairwise.nil
  | cons x xs ih => exact insertDesc_pairwise x (sortDesc xs) ih

theorem insertDesc_filter_score (x : Deal × ℚ) (l : List (Deal × ℚ)) (s : ℚ) :
    (insertDesc x l).filter (fun y => decide (y.2 = s))
      = if x.2 = s then x :: l.filter (fun y => decide (y.2 = s))
        else l.filter (fun y => decide (y.2 = s)) := by
  induction l with
  | nil =>
      show List.filter (fun y => decide (y.2 = s)) [x] = _
      by_cases hxs : x.2 = s <;> simp [hxs]
  | cons y ys ih =>
      by_cases hxy : x.2 < y.2
      · have hstep : insertDesc x (y :: ys) = y :: insertDesc x ys := by
          rw [insertDesc_cons, if_pos hxy]
        rw [hstep, List.filter_cons, ih]
        by_cases hxs : x.2 = s
        · have hys : ¬ y.2 = s := by
            intro hy
            rw [hxs] at hxy
            rw [hy] at hxy
            exact lt_irrefl s hxy
          simp [hxs, hys, List.filter_cons]
        · by_cases hys2 : y.2 = s <;> simp [hxs, hys2, List.filter_cons]
      · have hstep : insertDesc x (y :: ys) = x :: y :: ys := by
          rw [insertDesc_cons, if_neg hxy]
        rw [hstep, List.filter_cons]
        by_cases hxs : x.2 = s <;> simp [hxs]

theorem sortDesc_filter_score (l : List (Deal × ℚ)) (s : ℚ) :
    (sortDesc l).filter (fun y => decide (y.2 = s))
      = l.filter (fun y => decide (y.2 = s)) := by
  induction l with
  | nil => rfl
  | cons x xs ih =>
      show (insertDesc x (sortDesc xs)).filter _ = _
      rw [insertDesc_filter_score, ih, List.filter_cons]
      by_cases hxs : x.2 = s <;> simp [hxs]

theorem filter_take_is_prefix {α : Type} (l : List α) (n : Nat) (p : α → Bool) :
    ∃ t, (l.take n).filter p ++ t = l.filter p :=
  ⟨(l.drop n).filter p, by rw [← List.filter_append, List.take_append_drop]⟩

/-- C2 (confirmed): the matcher's result (i) contains only deals scoring
strictly above 0.3, (ii) is ordered by non-increasing score, (iii) is stable —
for every score value `s`, the equal-score run of the (taken) sorted candidate
list is an initial segment of the corpus-ordered candidate list with that
score, so ties retain corpus order, (iv) has length at most `n`, and (v) is
empty whenever the corpus contains no candidate scoring above the threshold. -/
theorem c2_matcher (lost : Deal) (won : List Deal) (n : Nat) :
    (∀ d ∈ get_won_deals_for_comparison lost won n, 3 / 10 < dealSimilarity lost d) ∧
    (get_won_deals_for_comparison lost won n).Pairwise
      (fun a b => dealSimilarity lost b ≤ dealSimilarity lost a) ∧
    (∀ s : ℚ, ∃ t,
      ((sortDesc (scoredCandidates lost won)).take n).filter (fun x => decide (x.2 = s)) ++ t
        = (scoredCandidates lost won).filter (fun x => decide (x.2 = s))) ∧
    (get_won_deals_for_comparison lost won n).length ≤ n ∧
    get_won_deals_for_comparison lost
      (won.filter (fun d => decide (dealSimilarity lost d ≤ 3 / 10))) n = [] := by
  have hmem_take : ∀ x ∈ (sortDesc (scoredCandidates lost won)).take n,
      x.2 = dealSimilarity lost x.1 ∧ 3 / 10 < x.2 := by
    intro x hx
    have hx2 : x ∈ sortDesc (scoredCandidates lost won) := List.mem_of_mem_take hx
    have hx3 : x ∈ scoredCandidates lost won :=
      (sortDesc_perm (scoredCandidates lost won)).mem_iff.mp hx2
    exact mem_scoredCandidates lost won x hx3
  refine ⟨?_, ?_, ?_, ?_, ?_⟩
  · intro d hd
    obtain ⟨x, hx, hxd⟩ := List.mem_map.mp hd
    obtain ⟨hx1, hx2⟩ := hmem_take x hx
    rw [← hxd, ← hx1]
    exact hx2
  · have hpw : ((sortDesc (scoredCandidates lost won)).take n).Pairwise
        (fun a b => b.2 ≤ a.2) :=
      (sortDesc_pairwise (scoredCandidates lost won)).sublist (List.take_sublist n _)
    have hpw2 : ((sortDesc (scoredCandidates lost won)).take n).Pairwise
        (fun a b => dealSimilarity lost b.1 ≤ dealSimilarity lost a.1) := by
      refine List.Pairwise.imp_of_mem ?_ hpw
      intro a b ha hb hab
      rw [← (hmem_take a ha).1, ← (hmem_take b hb).1]
      exact hab
    exact List.pairwise_map.mpr hpw2
  · intro s
    obtain ⟨t, ht⟩ :=
      filter_take_is_prefix (sortDesc (scoredCandidates lost won)) n
        (fun x => decide (x.2 = s))
    exact ⟨t, by rw [ht, sortDesc_filter_score]⟩
  · calc (get_won_deals_for_comparison lost won n).length
        = ((sortDesc (scoredCandidates lost won)).take n).length := List.length_map _ _
      _ ≤ n := List.length_take_le n _
  · have hempty : scoredCandidates lost
        (won.filter (fun d => decide (dealSimilarity lost d ≤ 3 / 10))) = [] := by
      unfold scoredCandidates
      rw [List.filterMap_eq_nil_iff]
      intro d hd
      have hle : dealSimilarity lost d ≤ 3 / 10 :=
        of_decide_eq_true (List.mem_filter.mp hd).2
      rw [if_neg (not_lt.mpr hle)]
    unfold get_won_deals_for_comparison
    rw [hempty]
    simp [sortDesc]

/-- C2 witness: the matcher on a concrete lost deal and a two-deal corpus
(one candidate above threshold, one below). -/
theorem c2_matcher_witness :
    dealW1 ∈ get_won_deals_for_comparison dealL [dealW1, dealW2] 2 ∧
    3 / 10 < dealSimilarity dealL dealW1 ∧
    (get_won_deals_for_comparison dealL [dealW1, dealW2] 2).length ≤ 2 := by
  have h := c2_matcher dealL [dealW1, dealW2] 2
  have hmem : dealW1 ∈ get_won_deals_for_comparison dealL [dealW1, dealW2] 2 := by
    have hsim : (3 / 10 : ℚ) < dealSimilarity dealL dealW1 := by
      unfold dealSimilarity
      rw [if_pos (by decide : industryMatch dealL dealW1),
        if_pos (by
          refine ⟨by norm_num [dealL], by norm_num [dealW1], ?_⟩
          norm_num [dealL, dealW1]),
        if_pos (by exact ⟨"ABC", by decide, by decide⟩)]
      norm_num
    have hsim2 : ¬ (3 / 10 : ℚ) < dealSimilarity dealL dealW2 := by
      unfold dealSimilarity
      rw [if_neg (by decide : ¬ industryMatch dealL dealW2),
        if_neg (by
          rintro ⟨_, _, hr⟩
          norm_num [dealL, dealW2] at hr),
        if_neg (by
          rintro ⟨c, hc1, hc2⟩
          simp [dealL, dealW2] at hc1 hc2
          rw [hc1] at hc2
          exact absurd hc2 (by decide))]
      norm_num
    have hcand : scoredCandidates dealL [dealW1, dealW2]
        = [(dealW1, dealSimilarity dealL dealW1)] := by
      unfold scoredCandidates
      rw [List.filterMap_cons, if_pos hsim, List.filterMap_cons, if_neg hsim2]
      rfl
    unfold get_won_deals_for_comparison
    rw [hcand]
    simp [sortDesc, insertDesc]
  refine ⟨hmem, h.1 dealW1 hmem, h.2.2.2.1⟩

/-! ## C5 — timeline stage rule-based fallback -/

theorem find_last_day_max (l : List TEvent) (p : TEvent → Bool) (fe : TEvent)
    (hfind : l.reverse.find? p = some fe)
    (hsort : l.Pairwise (fun a b => a.day ≤ b.day)) :
    ∀ e ∈ l, p e = true → e.day ≤ fe.day := by
  induction l using List.reverseRecOn with
  | nil => simp at hfind
  | append_singleton l' a ih =>
      rw [List.reverse_append, List.reverse_singleton, List.singleton_append] at hfind
      rw [List.pairwise_append] at hsort
      obtain ⟨hs1, _, hs3⟩ := hsort
      intro e he hpe
      cases hpa : p a with
      | true =>
          rw [List.find?_cons_of_pos _ hpa] at hfind
          cases hfind
          rcases List.mem_append.mp he with he' | he'
          · exact hs3 e he' fe (List.mem_singleton_self fe)
          · rw [List.mem_singleton] at he'
            rw [he']
      | false =>
          rw [List.find?_cons_of_neg _ (by simp [hpa])] at hfind
          rcases List.mem_append.mp he with he' | he'
          · exact ih hfind hs1 e he' hpe
          · rw [List.mem_singleton] at he'
            rw [he'] at hpe
            rw [hpa] at hpe
            cases hpe

/-- C5 counterexample: the claim quantifies over every deal, but on a deal
with an empty timeline the rule-based fallback evaluates
`timeline_events[-1]['day']` (timeline_agent.py:230) and raises `IndexError`
instead of returning any record with `timeline_score = 6` — modelled as
`none`. -/
theorem c5_empty_counterexample : get_fallback_analysis [] = none := rfl

/-- C5 (amended): for every deal with a **non-empty** timeline, when the
generation collaborator call fails the Timeline stage's rule-based fallback
returns a record with `timeline_score = 6`; its `response_time_issues` are
exactly the consecutive-event gaps strictly greater than 2 days (so every
such gap appears); its `failure_point` carries the day and event of the last
event in timeline order whose details contain one of
{ghost, lost, competitor, no response} case-insensitively — which is a
latest-day matching event whenever the timeline is sorted by day — or the
final event's day with placeholder event "Unknown" when none match. -/
theorem c5_timeline_fallback (timeline : List TEvent) (h : timeline ≠ []) :
    ∃ r, get_fallback_analysis timeline = some r ∧
      r.timeline_score = 6 ∧
      r.response_time_issues
        = (timeline.zip timeline.tail).filterMap (fun pq =>
            if 2 < pq.2.day - pq.1.day then
              some { delay_days := pq.2.day - pq.1.day, event := pq.2.event,
                     impact := "Potential loss of momentum" }
            else none) ∧
      (∀ pq ∈ timeline.zip timeline.tail, 2 < pq.2.day - pq.1.day →
        ({ delay_days := pq.2.day - pq.1.day, event := pq.2.event,
           impact := "Potential loss of momentum" } : ResponseIssue)
          ∈ r.response_time_issues) ∧
      (∀ fe, timeline.reverse.find? failMatch = some fe →
        r.failure_point.day = fe.day ∧ r.failure_point.event = fe.event) ∧
      (timeline.reverse.find? failMatch = none →
        ∃ le, timeline.getLast? = some le ∧
          r.failure_point.day = le.day ∧ r.failure_point.event = "Unknown") ∧
      (timeline.Pairwise (fun a b => a.day ≤ b.day) →
        ∀ fe, timeline.reverse.find? failMatch = some fe →
          ∀ e ∈ timeline, failMatch e = true → e.day ≤ fe.day) := by
  cases hfind : timeline.reverse.find? failMatch with
  | some fe =>
      have hfp : fallbackFailurePoint timeline
          = some { day := fe.day, event := fe.event,
                   reason := "Identified through pattern matching", recoverable := "yes" } := by
        unfold fallbackFailurePoint
        rw [hfind]
      refine ⟨fallbackRecord timeline
          { day := fe.day, event := fe.event,
            reason := "Identified through pattern matching", recoverable := "yes" },
        ?_, rfl, rfl, ?_, ?_, ?_, ?_⟩
      · unfold get_fallback_analysis
        rw [hfp]
        rfl
      · intro pq hpq hgt
        exact List.mem_filterMap.mpr ⟨pq, hpq, by rw [if_pos hgt]⟩
      · intro fe' hfe'
        cases hfe'
        exact ⟨rfl, rfl⟩
      · intro hnone
        exact absurd hnone (Option.some_ne_none fe)
      · intro hsort fe' hfe'
        cases hfe'
        exact find_last_day_max timeline failMatch fe hfind hsort
  | none =>
      have hex : ∃ le, timeline.getLast? = some le := by
        cases hl : timeline.getLast? with
        | some le => exact ⟨le, rfl⟩
        | none => exact absurd (List.getLast?_eq_none_iff.mp hl) h
      obtain ⟨le, hle⟩ := hex
      have hfp : fallbackFailurePoint timeline
          = some { day := le.day, event := "Unknown",
                   reason := "Identified through pattern matching", recoverable := "yes" } := by
        unfold fallbackFailurePoint
        rw [hfind, hle]
      refine ⟨fallbackRecord timeline
          { day := le.day, event := "Unknown",
            reason := "Identified through pattern matching", recoverable := "yes" },
        ?_, rfl, rfl, ?_, ?_, ?_, ?_⟩
      · unfold get_fallback_analysis
        rw [hfp]
        rfl
      · intro pq hpq hgt
        exact List.mem_filterMap.mpr ⟨pq, hpq, by rw [if_pos hgt]⟩
      · intro fe' hfe'
        exact absurd hfe' (by simp)
      · intro _
        exact ⟨le, hle, rfl, rfl⟩
      · intro hsort fe' hfe'
        exact absurd hfe' (by simp)

/-- C5 witness: the spec §8 example timeline — the day-12 "no response,
ghosted" event is the failure point and the score is 6. -/
theorem c5_timeline_fallback_witness :
    tlW ≠ [] ∧ ∃ r, get_fallback_analysis tlW = some r ∧
      r.timeline_score = 6 ∧ r.failure_point.day = 12 := by
  refine ⟨by decide, ?_⟩
  obtain ⟨r, hr, hscore, _, _, hfp, _, _⟩ := c5_timeline_fallback tlW (by decide)
  refine ⟨r, hr, hscore, ?_⟩
  have hfind : tlW.reverse.find? failMatch = some (tlW.get ⟨2, by decide⟩) := by decide
  exact (hfp _ hfind).1

/-! ## C9 — playbook fallback crashes on an empty competitor list -/

/-- C9 (confirmed): for any lost deal whose `competitors` field is present but
an empty list, the Playbook stage's rule-based fallback indexes
`competitors[0]` unconditionally (playbook_agent.py:207) and raises
`IndexError` instead of returning a fallback record — modelled as `none`. -/
theorem c9_playbook_empty_competitors (d : Deal) (h : d.competitors = some []) :
    get_fallback_playbook d = none := by
  unfold get_fallback_playbook
  rw [h]
  rfl

/-- C9 witness: a concrete deal with `competitors = []`. -/
theorem c9_playbook_empty_competitors_witness :
    dealEmptyComp.competitors = some [] ∧ get_fallback_playbook dealEmptyComp = none :=
  ⟨rfl, c9_playbook_empty_competitors dealEmptyComp rfl⟩

/-! ## C6 — index population is idempotent -/

theorem string_append_right_inj (pre : String) :
    Function.Injective (fun s => pre ++ s) := by
  intro a b hab
  have hd := congrArg String.data hab
  simp only [String.data_append] at hd
  have hab := List.append_cancel_left hd
  cases a
  cases b
  exact congrArg String.mk hab

theorem store_deals_eq_entries (st : Collection) (c : Corpus) :
    store_deals st c = storeEntries c := by
  unfold store_deals
  have hclear : st.filter (fun e => !(st.map Prod.fst).contains e.1) = [] := by
    rw [List.filter_eq_nil_iff]
    intro e he
    have hmem : e.1 ∈ st.map Prod.fst := List.mem_map.mpr ⟨e, he, rfl⟩
    simp [hmem]
  rw [hclear]
  by_cases hemp : (storeEntries c).isEmpty
  · rw [if_pos hemp]
    exact (List.isEmpty_iff.mp hemp).symm
  · rw [if_neg hemp]
    exact List.nil_append _

/-- C6 (confirmed, for corpora whose deal ids are duplicate-free within each
outcome class): `store_deals` clears the whole collection before re-adding, so
a second call with the same corpus is a no-op, the stored ids are pairwise
distinct, and the indexed count equals the corpus size. -/
theorem c6_store_idempotent (st : Collection) (c : Corpus)
    (h1 : (c.lost_deals.map (fun d => d.deal_id)).Nodup)
    (h2 : (c.won_deals.map (fun d => d.deal_id)).Nodup) :
    store_deals (store_deals st c) c = store_deals st c ∧
    ((store_deals st c).map Prod.fst).Nodup ∧
    (store_deals st c).length = c.lost_deals.length + c.won_deals.length := by
  refine ⟨by rw [store_deals_eq_entries, store_deals_eq_entries], ?_, ?_⟩
  · rw [store_deals_eq_entries]
    unfold storeEntries
    rw [List.map_append, List.map_map, List.map_map]
    have heq1 : (Prod.fst ∘ fun d : Deal => ("lost_" ++ d.deal_id, dealDocLost d))
        = (fun s => "lost_" ++ s) ∘ (fun d : Deal => d.deal_id) := rfl
    have heq2 : (Prod.fst ∘ fun d : Deal => ("won_" ++ d.deal_id, dealDocWon d))
        = (fun s => "won_" ++ s) ∘ (fun d : Deal => d.deal_id) := rfl
    rw [heq1, heq2, ← List.map_map, ← List.map_map]
    rw [List.nodup_append]
    refine ⟨h1.map (string_append_right_inj "lost_"),
            h2.map (string_append_right_inj "won_"), ?_⟩
    intro a ha hb
    obtain ⟨x, _, hx⟩ := List.mem_map.mp ha
    obtain ⟨y, _, hy⟩ := List.mem_map.mp hb
    have : "lost_" ++ x = "won_" ++ y := by rw [hx, hy]
    have hd := congrArg String.data this
    simp [String.data_append] at hd
  · rw [store_deals_eq_entries]
    unfold storeEntries
    simp

/-- C6 witness: a concrete three-deal corpus stored into an empty collection. -/
theorem c6_store_idempotent_witness :
    (corpusW.lost_deals.map (fun d => d.deal_id)).Nodup ∧
    (corpusW.won_deals.map (fun d => d.deal_id)).Nodup ∧
    store_deals (store_deals [] corpusW) corpusW = store_deals [] corpusW ∧
    (store_deals [] corpusW).length = 3 := by
  have h := c6_store_idempotent [] corpusW (by decide) (by decide)
  refine ⟨by decide, by decide, h.1, ?_⟩
  rw [h.2.2]
  rfl

/-! ## C8 — corpus loading performs no schema validation -/

/-- C8: the source's loader contradicts the claim.  `_load_sample_data`
(data_processor.py:10-23) returns any successfully JSON-decoded document
unchanged — the corpus containing a deal with no `timeline` field loads
without error — while the repository's own validator
`Helpers.validate_deal_data` (helpers.py:44-64), which would reject exactly
this record with a descriptive message, is never invoked by any caller.  No
`DataValidationError` exists anywhere in the source. -/
theorem c8_load_skips_validation :
    load_sample_data (.decoded badRawCorpus) = .ok badRawCorpus ∧
    (validate_deal_data badRawDeal).1 = false ∧
    (validate_deal_data badRawDeal).2 = "Missing required fields: timeline" :=
  ⟨rfl, rfl, rfl⟩

/-! ## C4 — response parsing: split/strip machinery -/

theorem splitOnFuel_congr (sep : List Char) :
    ∀ (f1 f2 : Nat) (l : List Char), l.length ≤ f1 → l.length ≤ f2 →
      splitOnFuel sep f1 l = splitOnFuel sep f2 l := by
  intro f1
  induction f1 with
  | zero =>
      intro f2 l h1 _
      have hl : l = [] := List.length_eq_zero.mp (Nat.le_zero.mp h1)
      subst hl
      cases f2 <;> rfl
  | succ f ih =>
      intro f2 l h1 h2
      cases l with
      | nil => cases f2 <;> rfl
      | cons c rest =>
          cases f2 with
          | zero => simp at h2
          | succ g =>
              simp only [splitOnFuel]
              by_cases hp : sep.isPrefixOf (c :: rest) ∧ sep ≠ []
              · rw [if_pos hp, if_pos hp,
                  ih g (List.drop (sep.length - 1) rest)
                    (by simp only [List.length_drop]
                        simp only [List.length_cons] at h1
                        omega)
                    (by simp only [List.length_drop]
                        simp only [List.length_cons] at h2
                        omega)]
              · rw [if_neg hp, if_neg hp,
                  ih g rest
                    (by simp only [List.length_cons] at h1; omega)
                    (by simp only [List.length_cons] at h2; omega)]

theorem splitOnL_cons (sep : List Char) (c : Char) (rest : List Char) :
    splitOnL sep (c :: rest)
      = if sep.isPrefixOf (c :: rest) ∧ sep ≠ [] then
          [] :: splitOnL sep (List.drop (sep.length - 1) rest)
        else
          match splitOnL sep rest with
          | [] => [[c]]
          | h :: t => (c :: h) :: t := by
  show splitOnFuel sep (rest.length + 1) (c :: rest) = _
  simp only [splitOnFuel]
  by_cases hp : sep.isPrefixOf (c :: rest) ∧ sep ≠ []
  · rw [if_pos hp, if_pos hp,
      splitOnFuel_congr sep rest.length (List.drop (sep.length - 1) rest).length
        (List.drop (sep.length - 1) rest)
        (by simp only [List.length_drop]; omega) (le_refl _)]
    rfl
  · rw [if_neg hp, if_neg hp]
    rfl

theorem splitOnL_of_no_match (sep : List Char) :
    ∀ l : List Char, (∀ k, ¬ sep.isPrefixOf (l.drop k) = true) → splitOnL sep l = [l] := by
  intro l
  induction l with
  | nil => intro _; rfl
  | cons c rest ih =>
      intro h
      rw [splitOnL_cons]
      have h0 : ¬ sep.isPrefixOf (c :: rest) = true := by
        have := h 0
        simpa using this
      rw [if_neg (fun hand => h0 hand.1)]
      rw [ih (fun k => by
        have := h (k + 1)
        simpa using this)]

theorem splitOnL_first (sep : List Char) (hsep : sep ≠ []) :
    ∀ (p rest : List Char),
      (∀ k, k < p.length → ¬ sep.isPrefixOf ((p ++ sep ++ rest).drop k) = true) →
      splitOnL sep (p ++ sep ++ rest) = p :: splitOnL sep rest := by
  intro p
  induction p with
  | nil =>
      intro rest _
      simp only [List.nil_append]
      cases hs : sep with
      | nil => exact absurd hs hsep
      | cons s ss =>
          have hpre : (s :: ss).isPrefixOf (s :: (ss ++ rest)) = true := by
            rw [List.isPrefixOf_iff_prefix]
            exact List.prefix_append (s :: ss) rest
          rw [List.cons_append, splitOnL_cons, if_pos ⟨hpre, by simp⟩]
          congr 1
          rw [show (s :: ss).length - 1 = ss.length from rfl, List.drop_left]
  | cons a p' ih =>
      intro rest h
      have hfirst : (a :: p') ++ sep ++ rest = a :: (p' ++ sep ++ rest) := by
        simp [List.cons_append]
      rw [hfirst, splitOnL_cons]
      have h0 : ¬ sep.isPrefixOf (a :: (p' ++ sep ++ rest)) = true := by
        have := h 0 (by simp)
        rw [hfirst] at this
        simpa using this
      rw [if_neg (fun hand => h0 hand.1)]
      rw [ih rest (fun k hk => by
        have := h (k + 1) (by simp only [List.length_cons]; omega)
        rw [hfirst] at this
        simpa using this)]

theorem mem_of_mem_splitOnFuel (sep : List Char) :
    ∀ (f : Nat) (l seg : List Char), seg ∈ splitOnFuel sep f l → ∀ ch ∈ seg, ch ∈ l := by
  intro f
  induction f with
  | zero =>
      intro l seg hseg ch hch
      cases l with
      | nil =>
          simp only [splitOnFuel, List.mem_singleton] at hseg
          subst hseg
          cases hch
      | cons c rest =>
          simp only [splitOnFuel, List.mem_singleton] at hseg
          subst hseg
          exact hch
  | succ f ih =>
      intro l seg hseg ch hch
      cases l with
      | nil =>
          simp only [splitOnFuel, List.mem_singleton] at hseg
          subst hseg
          cases hch
      | cons c rest =>
          simp only [splitOnFuel] at hseg
          by_cases hp : sep.isPrefixOf (c :: rest) ∧ sep ≠ []
          · rw [if_pos hp] at hseg
            rcases List.mem_cons.mp hseg with hs | hs
            · subst hs
              cases hch
            · have := ih (List.drop (sep.length - 1) rest) seg hs ch hch
              exact List.mem_cons_of_mem c (List.mem_of_mem_drop this)
          · rw [if_neg hp] at hseg
            cases hrec : splitOnFuel sep f rest with
            | nil =>
                rw [hrec] at hseg
                rw [List.mem_singleton] at hseg
                subst hseg
                rw [List.mem_singleton] at hch
                rw [hch]
                exact List.mem_cons_self c rest
            | cons hseg0 t =>
                rw [hrec] at hseg
                rcases List.mem_cons.mp hseg with hs | hs
                · subst hs
                  rcases List.mem_cons.mp hch with hc | hc
                  · subst hc
                    exact List.mem_cons_self ch rest
                  · have := ih rest hseg0 (by rw [hrec]; exact List.mem_cons_self _ _) ch hc
                    exact List.mem_cons_of_mem c this
                · have := ih rest seg (by rw [hrec]; exact List.mem_cons_of_mem _ hs) ch hch
                  exact List.mem_cons_of_mem c this

theorem mem_of_mem_splitOnL (sep l seg : List Char) (hseg : seg ∈ splitOnL sep l)
    (ch : Char) (hch : ch ∈ seg) : ch ∈ l :=
  mem_of_mem_splitOnFuel sep l.length l seg hseg ch hch

theorem getD_nil_or_mem {β : Type} (l : List (List β)) (i : Nat) :
    l.getD i [] = [] ∨ l.getD i [] ∈ l := by
  by_cases h : i < l.length
  · right
    rw [List.getD_eq_getElem l [] h]
    exact List.getElem_mem h
  · left
    exact List.getD_eq_default l [] (le_of_not_lt h)

theorem mem_of_mem_pyStrip (l : List Char) (ch : Char) (h : ch ∈ pyStrip l) : ch ∈ l := by
  unfold pyStrip at h
  rw [List.mem_reverse] at h
  have h2 : ch ∈ (l.dropWhile isSpaceChar).reverse :=
    (List.dropWhile_sublist isSpaceChar).subset h
  rw [List.mem_reverse] at h2
  exact (List.dropWhile_sublist isSpaceChar).subset h2

theorem pyFind_eq_neg_one (ch : Char) (l : List Char) (h : ch ∉ l) :
    pyFind ch l = -1 := by
  unfold pyFind
  have hnone : l.findIdx? (fun x => decide (x = ch)) = none := by
    rw [List.findIdx?_eq_none_iff]
    intro a ha
    simp only [decide_eq_false_iff_not]
    intro hac
    exact h (hac ▸ ha)
  rw [hnone]

theorem no_prefix_of_short (sep u : List Char) (h : u.length < sep.length) :
    ¬ sep.isPrefixOf u = true := by
  intro hpre
  have := (List.isPrefixOf_iff_prefix.mp hpre).length_le
  omega

theorem no_prefix_in_btfree (sep : List Char) (hsep : sep.head? = some btChar)
    (u tail : List Char) (hu : btChar ∉ u) :
    ∀ k, k < u.length → ¬ sep.isPrefixOf ((u ++ tail).drop k) = true := by
  intro k hk hpre
  have hdrop : (u ++ tail).drop k = u.drop k ++ tail := by
    rw [List.drop_append_eq_append_drop, Nat.sub_eq_zero_of_le hk.le, List.drop_zero]
  rw [hdrop] at hpre
  have hne : u.drop k ≠ [] := by
    intro hnil
    have := congrArg List.length hnil
    simp only [List.length_drop, List.length_nil] at this
    omega
  obtain ⟨d, ds, hd⟩ := List.exists_cons_of_ne_nil hne
  rw [hd, List.cons_append] at hpre
  cases hsepc : sep with
  | nil => rw [hsepc] at hsep; cases hsep
  | cons s0 srest =>
      rw [hsepc] at hsep
      have hs0 : s0 = btChar := by
        simp only [List.head?_cons, Option.some.injEq] at hsep
        exact hsep
      rw [hsepc] at hpre
      simp only [List.isPrefixOf, Bool.and_eq_true, beq_iff_eq] at hpre
      have hdmem : d ∈ u := by
        have : d ∈ u.drop k := by
          rw [hd]
          exact List.mem_cons_self d ds
        exact List.mem_of_mem_drop this
      rw [← hpre.1, hs0] at hdmem
      exact hu hdmem

theorem dropWhile_idem (p : Char → Bool) (l : List Char) :
    (l.dropWhile p).dropWhile p = l.dropWhile p := by
  induction l with
  | nil => rfl
  | cons a l' ih =>
      rw [List.dropWhile_cons]
      by_cases hpa : p a = true
      · rw [if_pos hpa]
        exact ih
      · rw [if_neg hpa, List.dropWhile_cons, if_neg hpa]

theorem head_dropWhile_false (p : Char → Bool) (l : List Char) :
    ∀ a, (l.dropWhile p).head? = some a → p a = false := by
  induction l with
  | nil => intro a h; cases h
  | cons b l' ih =>
      intro a h
      rw [List.dropWhile_cons] at h
      by_cases hpb : p b = true
      · rw [if_pos hpb] at h
        exact ih a h
      · rw [if_neg hpb] at h
        simp only [List.head?_cons, Option.some.injEq] at h
        rw [← h]
        simpa using hpb

theorem dropWhile_eq_self_of_head (p : Char → Bool) (l : List Char)
    (h : ∀ a, l.head? = some a → p a = false) : l.dropWhile p = l := by
  cases l with
  | nil => rfl
  | cons a l' =>
      rw [List.dropWhile_cons, if_neg (by simp [h a rfl])]

theorem getLast_dropWhile_eq (p : Char → Bool) :
    ∀ l : List Char, l.dropWhile p ≠ [] → (l.dropWhile p).getLast? = l.getLast? := by
  intro l
  induction l with
  | nil => intro hne; exact absurd rfl hne
  | cons b l' ih =>
      intro hne
      rw [List.dropWhile_cons] at hne ⊢
      by_cases hpb : p b = true
      · rw [if_pos hpb] at hne ⊢
        rw [ih hne]
        have hl' : l' ≠ [] := by
          intro h0
          rw [h0] at hne
          exact hne rfl
        cases l' with
        | nil => exact absurd rfl hl'
        | cons d t => rw [List.getLast?_cons_cons]
      · rw [if_neg hpb]

theorem pyStrip_idem (l : List Char) : pyStrip (pyStrip l) = pyStrip l := by
  by_cases hBnil : (l.dropWhile isSpaceChar).reverse.dropWhile isSpaceChar = []
  · show pyStrip (((l.dropWhile isSpaceChar).reverse.dropWhile isSpaceChar).reverse)
        = ((l.dropWhile isSpaceChar).reverse.dropWhile isSpaceChar).reverse
    rw [hBnil]
    rfl
  · have hhead : ∀ a,
        ((l.dropWhile isSpaceChar).reverse.dropWhile isSpaceChar).reverse.head? = some a →
          isSpaceChar a = false := by
      intro a ha
      rw [List.head?_reverse] at ha
      rw [getLast_dropWhile_eq isSpaceChar (l.dropWhile isSpaceChar).reverse hBnil] at ha
      rw [List.getLast?_reverse] at ha
      exact head_dropWhile_false isSpaceChar l a ha
    show pyStrip (((l.dropWhile isSpaceChar).reverse.dropWhile isSpaceChar).reverse)
        = ((l.dropWhile isSpaceChar).reverse.dropWhile isSpaceChar).reverse
    unfold pyStrip
    rw [dropWhile_eq_self_of_head isSpaceChar _ hhead, List.reverse_reverse, dropWhile_idem]

theorem hasSub_self_append (sep r : List Char) (h : sep ≠ []) :
    hasSub sep (sep ++ r) = true := by
  cases sep with
  | nil => exact absurd rfl h
  | cons s ss =>
      show ((s :: ss).isPrefixOf (s :: (ss ++ r)) || hasSub (s :: ss) (ss ++ r)) = true
      have hpre : (s :: ss).isPrefixOf (s :: (ss ++ r)) = true := by
        rw [List.isPrefixOf_iff_prefix]
        exact List.prefix_append (s :: ss) r
      rw [hpre, Bool.true_or]

theorem extractJsonStr_fenced (c : List Char) (hb : btChar ∉ c) :
    extractJsonStr (fenceJson ++ c ++ fence) = pyStrip c := by
  have htext : fenceJson ++ c ++ fence = fenceJson ++ (c ++ fence) := by
    rw [List.append_assoc]
  have hfj : hasSub fenceJson (fenceJson ++ (c ++ fence)) = true :=
    hasSub_self_append fenceJson (c ++ fence) (by decide)
  have hnomatch1 : ∀ k, ¬ fenceJson.isPrefixOf ((c ++ fence).drop k) = true := by
    intro k
    by_cases hk : k < c.length
    · exact no_prefix_in_btfree fenceJson rfl c fence hb k hk
    · intro hpre
      have hdrop : (c ++ fence).drop k = fence.drop (k - c.length) := by
        rw [List.drop_append_eq_append_drop, List.drop_eq_nil_of_le (le_of_not_lt hk),
          List.nil_append]
      rw [hdrop] at hpre
      have hlen := (List.isPrefixOf_iff_prefix.mp hpre).length_le
      have h3 : (fence.drop (k - c.length)).length ≤ 3 := by
        simp only [List.length_drop]
        have h3' : fence.length = 3 := rfl
        omega
      have h7 : fenceJson.length = 7 := rfl
      omega
  have hsplit1 : splitOnL fenceJson (fenceJson ++ (c ++ fence))
      = [] :: splitOnL fenceJson (c ++ fence) := by
    have := splitOnL_first fenceJson (by decide) [] (c ++ fence)
      (fun k hk => by simp at hk)
    simpa using this
  have hsplit2 : splitOnL fenceJson (c ++ fence) = [c ++ fence] :=
    splitOnL_of_no_match fenceJson (c ++ fence) hnomatch1
  have hsplit3 : splitOnL fence (c ++ fence) = [c, []] := by
    have hnm : ∀ k, k < c.length → ¬ fence.isPrefixOf ((c ++ fence ++ []).drop k) = true := by
      intro k hk
      rw [List.append_nil]
      exact no_prefix_in_btfree fence rfl c fence hb k hk
    have := splitOnL_first fence (by decide) c [] hnm
    rw [List.append_nil] at this
    rw [this]
    rfl
  unfold extractJsonStr
  rw [htext, if_pos hfj, hsplit1, hsplit2]
  have hgd1 : (([] : List Char) :: [c ++ fence]).getD 1 [] = c ++ fence := rfl
  rw [hgd1, hsplit3]
  have hgd0 : ([c, []] : List (List Char)).getD 0 [] = c := rfl
  rw [hgd0, pyStrip_idem]

theorem mem_of_mem_extractJsonStr (text : List Char) (ch : Char)
    (h : ch ∈ extractJsonStr text) : ch ∈ text := by
  unfold extractJsonStr at h
  have h0 := mem_of_mem_pyStrip _ _ h
  by_cases hfj : hasSub fenceJson text = true
  · rw [if_pos hfj] at h0
    have h1 := mem_of_mem_pyStrip _ _ h0
    rcases getD_nil_or_mem (splitOnL fence ((splitOnL fenceJson text).getD 1 [])) 0 with hg | hg
    · rw [hg] at h1
      cases h1
    · have h2 := mem_of_mem_splitOnL fence _ _ hg ch h1
      rcases getD_nil_or_mem (splitOnL fenceJson text) 1 with hg2 | hg2
      · rw [hg2] at h2
        cases h2
      · exact mem_of_mem_splitOnL fenceJson _ _ hg2 ch h2
  · rw [if_neg hfj] at h0
    by_cases hf : hasSub fence text = true
    · rw [if_pos hf] at h0
      have h1 := mem_of_mem_pyStrip _ _ h0
      rcases getD_nil_or_mem (splitOnL fence text) 1 with hg | hg
      · rw [hg] at h1
        cases h1
      · exact mem_of_mem_splitOnL fence _ _ hg ch h1
    · rwa [if_neg hf] at h0

set_option maxRecDepth 100000 in
/-- C4 counterexample, refuting both halves of the claim as stated.
First half: for the brace-free input of 501 `a`s the parse-fallback is
produced, but its `raw_response` is the first 500 characters **plus** the
three-character suffix `...` (timeline_agent.py:150), not the plain first 500
characters the claim describes.  Second half: `text4Bad` is a fenced ```json
block whose embedded object `objBad` is valid JSON (`loads4Bad` decodes it),
yet the naive `split('```')` at timeline_agent.py:94 cuts the object at the
backtick run inside its string value, so parsing yields the fallback record
rather than the embedded object. -/
theorem c4_truncation_counterexample :
    parse_analysis_response loads4Bad longNoBrace
        = ParseResult.fallback (structuredFallback longNoBrace) ∧
    (structuredFallback longNoBrace).raw_response ≠ longNoBrace.take 500 ∧
    loads4Bad objBad.toList = some 1 ∧
    parse_analysis_response loads4Bad text4Bad
        = ParseResult.fallback (structuredFallback text4Bad) := by
  refine ⟨by decide, by decide, by decide, by decide⟩

/-- C4 (amended): (i) for raw text consisting of a fenced ```json block whose
contents `c` are free of backticks and whose stripped form is a brace-enclosed
string the decoder accepts, the parsed result is exactly the embedded object;
(ii) for raw text containing no braces at all, parsing fails and the
parse-fallback record is produced, whose `raw_response` equals the whole input
when it has at most 500 characters and the first 500 characters followed by
"..." otherwise. -/
theorem c4_parse_response {α : Type} (loads : List Char → Option α) (c : List Char)
    (j : α) (text : List Char)
    (hb : btChar ∉ c)
    (h1 : (pyStrip c).head? = some obrace)
    (h2 : (pyStrip c).getLast? = some cbrace)
    (hl : loads (pyStrip c) = some j)
    (ht : obrace ∉ text) :
    parse_analysis_response loads (fenceJson ++ c ++ fence) = ParseResult.parsed j ∧
    parse_analysis_response loads text = ParseResult.fallback (structuredFallback text) ∧
    (structuredFallback text).raw_response
      = (if 500 < text.length then text.take 500 ++ "...".toList else text) := by
  refine ⟨?_, ?_, rfl⟩
  · simp only [parse_analysis_response]
    rw [extractJsonStr_fenced c hb, if_pos ⟨h1, h2⟩, hl]
  · simp only [parse_analysis_response]
    have hnotin : obrace ∉ extractJsonStr text :=
      fun hmem => ht (mem_of_mem_extractJsonStr text obrace hmem)
    have hcond1 : ¬ ((extractJsonStr text).head? = some obrace ∧
        (extractJsonStr text).getLast? = some cbrace) := by
      rintro ⟨ha, _⟩
      cases hjs : extractJsonStr text with
      | nil =>
          rw [hjs] at ha
          cases ha
      | cons d ds =>
          rw [hjs] at ha
          simp only [List.head?_cons, Option.some.injEq] at ha
          apply hnotin
          rw [hjs, ← ha]
          exact List.mem_cons_self d ds
    rw [if_neg hcond1]
    have hfind : pyFind obrace (extractJsonStr text) = -1 :=
      pyFind_eq_neg_one obrace _ hnotin
    rw [if_neg (fun hand => hand.1 hfind)]

/-- C4 witness: a concrete fenced object is parsed back exactly, and a
concrete brace-free text routes to the parse-fallback. -/
theorem c4_parse_response_witness :
    parse_analysis_response loads4W (fenceJson ++ objW.toList ++ fence)
        = ParseResult.parsed 6 ∧
    parse_analysis_response loads4W "no json here".toList
        = ParseResult.fallback (structuredFallback "no json here".toList) := by
  have h := c4_parse_response loads4W objW.toList 6 "no json here".toList
    (by decide) (by decide) (by decide) (by decide) (by decide)
  exact ⟨h.1, h.2.1⟩
